import Mathlib

/-!
# Verification of the Firestore data-uploader upload engine

Shallow embedding of the upload engine of the repository
(`useFirestoreRestUpload` hook and the file-parsing utilities), and proofs of
the specification claims C1–C10 about it.

Modelling conventions, used throughout:

* JavaScript strings are modelled as Lean `String`; the string methods the
  source uses (`startsWith`, `endsWith`, `split`, `trim`, `slice`) are modelled
  as explicit functions on the character list (`String.data`).  All string
  constants appearing in the source are ASCII, where JavaScript's UTF-16
  code-unit indexing agrees with character indexing.
* JavaScript numbers are modelled as exact rationals (`ℚ`).  `Number.isInteger`
  becomes the test `q.den = 1`, and `parseFloat` produces the exact rational
  value of the accepted decimal literal (`NaN` becomes `none`; the non-finite
  literals `Infinity`/`NaN`, which have no exact-rational counterpart, are
  outside the model).  `Math.round` on the non-negative values used here is
  `⌊q + 1/2⌋`.
* Platform effects are oracles passed as explicit arguments: the result of the
  Web-Crypto JWT signing (`jwtRes`), the token-endpoint HTTP exchange
  (`tokenFetch`) and each per-document write (`writes`).  The wall-clock ISO
  string used for the `"Timestamp"` sentinel is the parameter `now`.
* Within one 5-document group the write promises settle in an arbitrary order;
  the order is the explicit schedule argument `sched`, constrained to be a
  per-group permutation of the group's document indices (`ValidSched`).
* React state cells (`progress`, `logs`) become fields of an explicit state
  record threaded through the run; in addition to the retained log (capped at
  the 100 most recent entries, newest first, as in the source) the state keeps
  the full emission trace and the list of all published progress snapshots,
  which are the observation points the claims quantify over.  The `id` and
  `timestamp` fields of a log entry (wall clock) are not modelled.
-/

/-! ## JSON-like document values and the Firestore wire values -/

/-- A JSON value as produced by `JSON.parse`: the dynamically-typed document
values the uploader receives (`DocumentData` values).  Object fields are kept
as an association list in insertion order, as JavaScript enumerates them. -/
inductive JsValue where
  | null
  | str (s : String)
  | num (q : ℚ)
  | bool (b : Bool)
  | arr (xs : List JsValue)
  | obj (fields : List (String × JsValue))

/-- A document: a string-keyed map of values (`DocumentData`). -/
abbrev JsDoc := List (String × JsValue)

/-- The typed wire representation: a tree of single-key discriminated unions,
as built by `convertToFirestoreFormat` (src/unnamed/part_008, lines 143–201). -/
inductive WireValue where
  | nullValue
  | stringValue (s : String)
  | integerValue (q : ℚ)
  | doubleValue (q : ℚ)
  | booleanValue (b : Bool)
  | timestampValue (t : String)
  | geoPointValue (latitude longitude : ℚ)
  | arrayValue (values : List WireValue)
  | mapValue (fields : List (String × WireValue))

/-- The request body `{ fields: ... }` of a document write. -/
structure FirestoreDoc where
  fields : List (String × WireValue)

/-! ## JavaScript string and number primitives used by the source -/

/-- JavaScript `s.startsWith(pre)`. -/
def jsStartsWith (s pre : String) : Bool := pre.data.isPrefixOf s.data

/-- JavaScript `s.endsWith(suf)`. -/
def jsEndsWith (s suf : String) : Bool := suf.data.isSuffixOf s.data

/-- JavaScript whitespace test used by `trim` and `parseFloat` (the source only
ever trims ASCII whitespace). -/
def jsWhite (c : Char) : Bool := c.isWhitespace

/-- JavaScript `s.trim()`. -/
def jsTrim (s : String) : String :=
  ⟨((s.data.dropWhile jsWhite).reverse.dropWhile jsWhite).reverse⟩

/-- JavaScript `s.split(sep)` for a one-character separator, on character
lists: `""` splits to `[""]`, and separators at the ends produce empty
pieces, as in JavaScript. -/
def splitChar (sep : Char) : List Char → List (List Char)
  | [] => [[]]
  | c :: cs =>
    if c = sep then [] :: splitChar sep cs
    else
      match splitChar sep cs with
      | [] => [[c]]
      | h :: t => (c :: h) :: t

/-- JavaScript `s.split(sep)`. -/
def jsSplit (sep : Char) (s : String) : List String :=
  (splitChar sep s.data).map String.mk

/-- Numeric value of a digit run. -/
def digitsVal (l : List Char) : Nat :=
  l.foldl (fun a c => a * 10 + (c.toNat - 48)) 0

/-- JavaScript `parseFloat`: skip leading whitespace, accept an optional sign,
a decimal literal `digits [. digits]` (either side of the point may be empty
but not both), and an optional exponent whose digits, if absent, make the
exponent part trailing garbage; all trailing garbage is ignored.  `none` is
`NaN` (nothing parseable).  The value is the exact rational value of the
accepted literal. -/
def parseFloat (s : String) : Option ℚ :=
  let cs := s.data.dropWhile jsWhite
  let signAndRest : Int × List Char :=
    match cs with
    | '-' :: t => (-1, t)
    | '+' :: t => (1, t)
    | _ => (1, cs)
  let sign := signAndRest.1
  let cs := signAndRest.2
  let intPart := cs.takeWhile Char.isDigit
  let cs1 := cs.dropWhile Char.isDigit
  let fracAndRest : List Char × List Char :=
    match cs1 with
    | '.' :: t => (t.takeWhile Char.isDigit, t.dropWhile Char.isDigit)
    | _ => ([], cs1)
  let fracPart := fracAndRest.1
  let cs2 := fracAndRest.2
  if intPart = [] ∧ fracPart = [] then none
  else
    let mantNum : Nat := digitsVal intPart * 10 ^ fracPart.length + digitsVal fracPart
    let exp : Int :=
      match cs2 with
      | e :: t =>
        if e = 'e' ∨ e = 'E' then
          let esAndRest : Int × List Char :=
            match t with
            | '-' :: u => (-1, u)
            | '+' :: u => (1, u)
            | _ => (1, t)
          let ds := esAndRest.2.takeWhile Char.isDigit
          if ds = [] then 0 else esAndRest.1 * (digitsVal ds : Int)
        else 0
      | [] => 0
    some (mkRat (sign * mantNum * 10 ^ exp.toNat) (10 ^ (fracPart.length + (-exp).toNat)))

/-! ## The wire encoder (`convertToFirestoreFormat`, lines 143–201) -/

/-- `value.slice(9, -1)`: the interior of a `GeoPoint(...)` string (both the
prefix and the suffix are ASCII, and a string passing both the `startsWith`
and `endsWith` tests has length ≥ 10). -/
def geoContent (s : String) : String := ⟨(s.data.drop 9).dropLast⟩

/-- `geoPointContent.split(',').map(coord => parseFloat(coord.trim()))`
(line 155): the interior split on **every** comma, each piece trimmed and
parsed; `none` is `NaN`. -/
def geoCoords (s : String) : List (Option ℚ) :=
  (jsSplit ',' (geoContent s)).map (fun c => parseFloat (jsTrim c))

mutual

/-- The inner `convertValue` of `convertToFirestoreFormat` (lines 144–193).
The `"Timestamp"` sentinel uses the wall-clock parameter `now`.  The final
`String(value)` fallback of line 192 is unreachable for values originating
from JSON and has no counterpart in `JsValue`. -/
def convertValue (now : String) : JsValue → Except String WireValue
  | .null => .ok .nullValue
  | .str s =>
    if s = "Timestamp" then .ok (.timestampValue now)
    else if jsStartsWith s "GeoPoint(" && jsEndsWith s ")" then
      match geoCoords s with
      | [some a, some b] => .ok (.geoPointValue a b)
      | _ => .error ("Invalid GeoPoint format: " ++ s ++
          ". Expected: GeoPoint(latitude, longitude)")
    else .ok (.stringValue s)
  | .num q => if q.den = 1 then .ok (.integerValue q) else .ok (.doubleValue q)
  | .bool b => .ok (.booleanValue b)
  | .arr xs => (convertList now xs).map WireValue.arrayValue
  | .obj fs => (convertFields now fs).map WireValue.mapValue

/-- `value.map(convertValue)` over an array, propagating the first thrown
encoding error. -/
def convertList (now : String) : List JsValue → Except String (List WireValue)
  | [] => .ok []
  | x :: xs => do
    let w ← convertValue now x
    let ws ← convertList now xs
    return w :: ws

/-- The `for (const [key, val] of Object.entries(value))` loops of lines
184–187 and 195–198, in insertion order. -/
def convertFields (now : String) :
    List (String × JsValue) → Except String (List (String × WireValue))
  | [] => .ok []
  | (k, v) :: rest => do
    let w ← convertValue now v
    let ws ← convertFields now rest
    return (k, w) :: ws

end

/-- `convertToFirestoreFormat` (lines 143–201): encode every field and wrap
the result in `{ fields }`. -/
def convertToFirestoreFormat (now : String) (doc : JsDoc) :
    Except String FirestoreDoc :=
  (convertFields now doc).map FirestoreDoc.mk

/-! ## Spec-side comparators for C1 and C2 -/

mutual

/-- Plain values in the sense of claim C1: no string in the tree is the
`"Timestamp"` sentinel and none is sentinel-shaped for `GeoPoint`
(starts with `GeoPoint(` and ends with `)`). -/
def plainValue : JsValue → Bool
  | .null => true
  | .str s => !(s = "Timestamp" : Bool) && !(jsStartsWith s "GeoPoint(" && jsEndsWith s ")")
  | .num _ => true
  | .bool _ => true
  | .arr xs => plainList xs
  | .obj fs => plainFields fs

/-- `plainValue` on every element of an array. -/
def plainList : List JsValue → Bool
  | [] => true
  | x :: xs => plainValue x && plainList xs

/-- `plainValue` on every field value of a map. -/
def plainFields : List (String × JsValue) → Bool
  | [] => true
  | (_, v) :: rest => plainValue v && plainFields rest

end

mutual

/-- Follows the spec's words (claim C1): the fixed recursive mapping rules
`null→nullValue`, `string→stringValue` verbatim, `integral
number→integerValue`, `non-integral number→doubleValue`,
`boolean→booleanValue`, `array→arrayValue` in order, `map→mapValue` per key.
To be compared with `convertValue`, which was translated from the source. -/
def specWireValue : JsValue → WireValue
  | .null => .nullValue
  | .str s => .stringValue s
  | .num q => if q.den = 1 then .integerValue q else .doubleValue q
  | .bool b => .booleanValue b
  | .arr xs => .arrayValue (specWireList xs)
  | .obj fs => .mapValue (specWireFields fs)

/-- `specWireValue` elementwise, order preserved. -/
def specWireList : List JsValue → List WireValue
  | [] => []
  | x :: xs => specWireValue x :: specWireList xs

/-- `specWireValue` on each field, keys preserved. -/
def specWireFields : List (String × JsValue) → List (String × WireValue)
  | [] => []
  | (k, v) :: rest => (k, specWireValue v) :: specWireFields rest

end

/-- Follows the spec's words (claim C2): split the interior on the **first**
comma only. -/
def splitFirstComma (s : String) : List String :=
  if s.data.contains ',' then
    [⟨s.data.takeWhile (fun c => c != ',')⟩,
     ⟨(s.data.dropWhile (fun c => c != ',')).drop 1⟩]
  else [s]

/-- Follows the spec's words (claim C2): a string is a geographic-point
sentinel exactly when it starts with `GeoPoint(`, ends with `)`, and the
interior, split on the first comma, yields exactly two parseable
floating-point components.  To be compared with the `geoCoords`-based test of
`convertValue`, which was translated from the source. -/
def specGeoMatch (s : String) : Bool :=
  jsStartsWith s "GeoPoint(" && jsEndsWith s ")" &&
    match (splitFirstComma (geoContent s)).map (fun c => parseFloat (jsTrim c)) with
    | [some _, some _] => true
    | _ => false

/-! ### C1: the fixed mapping rules on sentinel-free documents -/

mutual

/-- On plain values `convertValue` cannot fail and agrees with the spec's
fixed mapping rules. -/
theorem convertValue_plain (now : String) :
    ∀ v, plainValue v = true → convertValue now v = .ok (specWireValue v)
  | .null, _ => rfl
  | .str s, h => by
    simp only [plainValue, Bool.and_eq_true, Bool.not_eq_eq_eq_not, Bool.not_true,
      decide_eq_false_iff_not] at h
    simp [convertValue, specWireValue, h.1, h.2]
  | .num q, _ => by
    by_cases h : q.den = 1 <;> simp [convertValue, specWireValue, h]
  | .bool b, _ => rfl
  | .arr xs, h => by
    have hx := convertList_plain now xs (by simpa [plainValue] using h)
    simp [convertValue, specWireValue, hx, Except.map]
  | .obj fs, h => by
    have hx := convertFields_plain now fs (by simpa [plainValue] using h)
    simp [convertValue, specWireValue, hx, Except.map]

/-- `convertList` on plain elements. -/
theorem convertList_plain (now : String) :
    ∀ xs, plainList xs = true → convertList now xs = .ok (specWireList xs)
  | [], _ => rfl
  | x :: xs, h => by
    have h' : plainValue x = true ∧ plainList xs = true := by
      simpa [plainList, Bool.and_eq_true] using h
    have h1 := convertValue_plain now x h'.1
    have h2 := convertList_plain now xs h'.2
    simp only [convertList, specWireList, h1, h2]
    rfl

/-- `convertFields` on plain field values. -/
theorem convertFields_plain (now : String) :
    ∀ fs, plainFields fs = true → convertFields now fs = .ok (specWireFields fs)
  | [], _ => rfl
  | (k, v) :: rest, h => by
    have h' : plainValue v = true ∧ plainFields rest = true := by
      simpa [plainFields, Bool.and_eq_true] using h
    have h1 := convertValue_plain now v h'.1
    have h2 := convertFields_plain now rest h'.2
    simp only [convertFields, specWireFields, h1, h2]
    rfl

end

/-- C1: on a document whose values are built from null, non-sentinel strings,
numbers, booleans, arrays and nested maps, the encoder returns `{ fields }`
with every value mapped recursively by the fixed rules (`specWireFields`). -/
theorem claim_C1_wire_encoder (now : String) (doc : JsDoc)
    (h : plainFields doc = true) :
    convertToFirestoreFormat now doc = .ok ⟨specWireFields doc⟩ := by
  simp [convertToFirestoreFormat, convertFields_plain now doc h, Except.map]

/-- The concrete example document of the spec:
`{"a": 1, "b": 1.5, "c": true, "d": null, "e": ["x", 2], "f": {"g": "h"}}`. -/
def exampleDoc : JsDoc :=
  [("a", .num 1), ("b", .num (mkRat 3 2)), ("c", .bool true), ("d", .null),
   ("e", .arr [.str "x", .num 2]), ("f", .obj [("g", .str "h")])]

/-- Witness for C1: the example document is plain, and it encodes to exactly
the wire tree given in the spec (1.5 is the rational 3/2). -/
theorem claim_C1_wire_encoder_witness :
    plainFields exampleDoc = true ∧
      convertToFirestoreFormat "2024-01-01T00:00:00.000Z" exampleDoc =
        .ok ⟨[("a", .integerValue 1), ("b", .doubleValue (mkRat 3 2)),
              ("c", .booleanValue true), ("d", .nullValue),
              ("e", .arrayValue [.stringValue "x", .integerValue 2]),
              ("f", .mapValue [("g", .stringValue "h")])]⟩ := by
  refine ⟨by decide, ?_⟩
  rw [claim_C1_wire_encoder "2024-01-01T00:00:00.000Z" exampleDoc (by decide)]
  rfl

/-! ### C2: the GeoPoint sentinel grammar -/

/-- C2 fails on the code: the claim's grammar ("split on the first comma,
exactly two parseable components") accepts `"GeoPoint(1,2,3)"` (components
`"1"` and `"2,3"`, which `parseFloat` parses as 1 and 2), but the source
splits on every comma, obtains three pieces, and throws the per-document
encoding error instead of producing a geo point. -/
theorem claim_C2_geopoint_counterexample :
    specGeoMatch "GeoPoint(1,2,3)" = true ∧
      convertValue "" (.str "GeoPoint(1,2,3)") =
        .error "Invalid GeoPoint format: GeoPoint(1,2,3). Expected: GeoPoint(latitude, longitude)" :=
  ⟨rfl, rfl⟩

/-- C2 (amended): a string starting with `GeoPoint(` and ending with `)` is
treated as a geographic-point sentinel exactly when the interior, split on
**every** comma, yields exactly two components each of which (trimmed) parses
as a floating-point number; then the first component is the latitude and the
second the longitude, and any other interior raises the per-document encoding
error. -/
theorem claim_C2_geopoint_amended (now s : String)
    (h1 : jsStartsWith s "GeoPoint(" = true) (h2 : jsEndsWith s ")" = true) :
    (∀ a b, geoCoords s = [some a, some b] →
        convertValue now (.str s) = .ok (.geoPointValue a b)) ∧
      ((∀ a b, geoCoords s ≠ [some a, some b]) →
        convertValue now (.str s) =
          .error ("Invalid GeoPoint format: " ++ s ++
            ". Expected: GeoPoint(latitude, longitude)")) := by
  have hts : s ≠ "Timestamp" := by
    intro hs
    rw [hs] at h1
    exact absurd h1 (by decide)
  constructor
  · intro a b hco
    simp [convertValue, hts, h1, h2, hco]
  · intro hco
    simp only [convertValue, if_neg hts, h1, h2, Bool.and_self, if_pos]

/-- Witness for C2 (amended): `"GeoPoint(37.7749, -122.4194)"` satisfies the
grammar and encodes to `{geoPointValue:{latitude:37.7749, longitude:-122.4194}}`
(37.7749 = 377749/10000, -122.4194 = -1224194/10000). -/
theorem claim_C2_geopoint_amended_witness :
    jsStartsWith "GeoPoint(37.7749, -122.4194)" "GeoPoint(" = true ∧
      geoCoords "GeoPoint(37.7749, -122.4194)" =
        [some (mkRat 377749 10000), some (mkRat (-1224194) 10000)] ∧
      convertValue "" (.str "GeoPoint(37.7749, -122.4194)") =
        .ok (.geoPointValue (mkRat 377749 10000) (mkRat (-1224194) 10000)) := by
  refine ⟨by decide, by decide, ?_⟩
  exact (claim_C2_geopoint_amended "" _ (by decide) (by decide)).1 _ _ (by decide)

/-! ## Progress, logs, and the upload state (`useFirestoreRestUpload`) -/

/-- The three log entry kinds (`type` in the source). -/
inductive LogKind where
  | success
  | error
  | info
deriving DecidableEq, Repr

/-- The messages the hook passes to `addLog`, one constructor per call site,
carrying the interpolated data; `LogMsg.render` below recovers the exact
source strings. -/
inductive LogMsg where
  | gettingToken (projectId : String)
  | creatingJWT
  | requestingToken
  | tokenObtained
  | tokenFailed
  | startingUpload (n : Nat) (collection : String)
  | docUploaded (pos1 : Nat)
  | docFailed (pos1 : Nat)
  | uploadCompleted (completed failed : Nat)
  | uploadFailed
deriving DecidableEq, Repr

/-- The exact message strings of the source (1-based document positions). -/
def LogMsg.render : LogMsg → String
  | .gettingToken p => "Getting access token for project: " ++ p
  | .creatingJWT => "Creating JWT for service account authentication..."
  | .requestingToken => "Requesting access token from Google OAuth..."
  | .tokenObtained => "Access token obtained successfully"
  | .tokenFailed => "Failed to get access token"
  | .startingUpload n c =>
    "Starting upload of " ++ toString n ++ " documents to collection: " ++ c
  | .docUploaded k => "Document " ++ toString k ++ " uploaded successfully"
  | .docFailed k => "Failed to upload document " ++ toString k
  | .uploadCompleted c f =>
    "Upload completed: " ++ toString c ++ " successful, " ++ toString f ++ " failed"
  | .uploadFailed => "Upload failed"

/-- An `UploadLog` entry; the wall-clock `id`/`timestamp` fields are not
modelled. -/
structure LogEntry where
  kind : LogKind
  msg : LogMsg
  details : Option String
deriving DecidableEq, Repr

/-- An `UploadProgress` snapshot. -/
structure Progress where
  total : Nat
  completed : Nat
  failed : Nat
  percentage : Nat
deriving DecidableEq, Repr

/-- The React state of the hook, plus two specification-only traces: the full
emission-order log trace (`emitted`, oldest first) and every published
progress snapshot (`snapshots`, oldest first).  `retained` is the `logs`
state cell of the source: newest first, capped at 100 entries. -/
structure UpState where
  retained : List LogEntry
  emitted : List LogEntry
  snapshots : List Progress
  progress : Progress
  completed : Nat
  failed : Nat
deriving DecidableEq, Repr

/-- `addLog` (lines 14–23): prepend the entry and keep the 100 most recent;
the emission trace records every entry in order. -/
def addLog (k : LogKind) (m : LogMsg) (d : Option String) (st : UpState) : UpState :=
  let e : LogEntry := ⟨k, m, d⟩
  { st with retained := (e :: st.retained).take 100, emitted := st.emitted ++ [e] }

/-- A `setProgress` call: publish a snapshot and make it current. -/
def publish (p : Progress) (st : UpState) : UpState :=
  { st with progress := p, snapshots := st.snapshots ++ [p] }

/-- JavaScript `Math.round` on the non-negative values used here. -/
def jsRound (q : ℚ) : ℤ := ⌊q + 1 / 2⌋

/-- The percentage formula of line 266:
`Math.round(((completed + failed) / documents.length) * 100)` with `k` the
settled count and `n` the document count (`0/0` never arises: the update runs
only when a document exists). -/
def percentageOf (k n : Nat) : Nat := (jsRound ((k : ℚ) / (n : ℚ) * 100)).toNat

/-- The hook's initial state. -/
def initialUpState : UpState := ⟨[], [], [], ⟨0, 0, 0, 0⟩, 0, 0⟩

/-! ## Token acquisition (`createSignedJWT`, `getAccessToken`, lines 26–140)

`createSignedJWT` is Web-Crypto bound; its outcome is the oracle `jwtRes`
(`.ok jwt`, or `.error m` with `m` the thrown message, e.g.
`Failed to create JWT: ...` for a malformed PEM).  The token-endpoint `fetch`
outcome is the oracle `tokenFetch`: `.error m` for a network-level failure,
or `.ok` of the HTTP response. -/

/-- The token-endpoint HTTP response: `ok` is `response.ok` (2xx),
`status`/`body` feed the error message, `accessToken` is the
`access_token` field of the JSON body. -/
structure HttpResp where
  ok : Bool
  status : Nat
  body : String
  accessToken : String
deriving DecidableEq, Repr

/-- The value `getAccessToken` returns or the error it throws
(lines 108–140): a JWT failure or fetch rejection propagates; a non-2xx
response throws `OAuth failed (status): body`. -/
def tokenResult (jwtRes : Except String String)
    (tokenFetch : Except String HttpResp) : Except String String :=
  match jwtRes with
  | .error e => .error e
  | .ok _ =>
    match tokenFetch with
    | .error e => .error e
    | .ok r =>
      if r.ok then .ok r.accessToken
      else .error ("OAuth failed (" ++ toString r.status ++ "): " ++ r.body)

/-- `getAccessToken` (lines 108–140) including its logging: two `info` logs
on the way, a `success` log on success; any failure inside the `try` is
caught, logged as `error` with the message as details, and rethrown. -/
def getAccessToken (jwtRes : Except String String)
    (tokenFetch : Except String HttpResp) (st : UpState) :
    UpState × Except String String :=
  let st := addLog .info .creatingJWT none st
  match jwtRes with
  | .error e => (addLog .error .tokenFailed (some e) st, .error e)
  | .ok _jwt =>
    let st := addLog .info .requestingToken none st
    match tokenFetch with
    | .error e => (addLog .error .tokenFailed (some e) st, .error e)
    | .ok r =>
      if r.ok then (addLog .success .tokenObtained none st, .ok r.accessToken)
      else
        let msg := "OAuth failed (" ++ toString r.status ++ "): " ++ r.body
        (addLog .error .tokenFailed (some msg) st, .error msg)

/-! ## Per-document write and the batch loop (lines 204–287) -/

/-- The per-document write HTTP response (`response.ok`, and the status/body
used for the thrown `HTTP <status>: <text>` error). -/
structure WriteResp where
  ok : Bool
  status : Nat
  body : String
deriving DecidableEq, Repr

/-- `uploadDocument` (lines 204–227): encode the document (a thrown encoding
error propagates), then POST it; a network rejection propagates and a non-2xx
response throws `HTTP <status>: <text>`.  The write outcome is the per-call
oracle `writeRes`. -/
def uploadDocument (now : String) (doc : JsDoc)
    (writeRes : Except String WriteResp) : Except String Unit :=
  match convertToFirestoreFormat now doc with
  | .error e => .error e
  | .ok _ =>
    match writeRes with
    | .error e => .error e
    | .ok r =>
      if r.ok then .ok ()
      else .error ("HTTP " ++ toString r.status ++ ": " ++ r.body)

/-- The outcome of the write attempt for the document at 0-based position
`pos` (out-of-range positions never arise under a valid schedule). -/
def outcomeAt (now : String) (docs : List JsDoc)
    (writes : List (Except String WriteResp)) (pos : Nat) : Except String Unit :=
  uploadDocument now (docs.getD pos []) (writes.getD pos (.ok ⟨true, 200, ""⟩))

/-- The log entry the settling of document `pos` emits (lines 255 and 259):
success, or error with the document's 1-based position and the error text. -/
def entryOf (now : String) (docs : List JsDoc)
    (writes : List (Except String WriteResp)) (pos : Nat) : LogEntry :=
  match outcomeAt now docs writes pos with
  | .ok _ => ⟨.success, .docUploaded (pos + 1), none⟩
  | .error m => ⟨.error, .docFailed (pos + 1), some m⟩

/-- One promise settling (lines 251–268): bump the counter, log the outcome,
then publish the updated progress snapshot; the `...prev` spread of line 263
carries over exactly the `total` field, the other three are overwritten. -/
def settle (now : String) (docs : List JsDoc)
    (writes : List (Except String WriteResp)) (pos : Nat) (st : UpState) : UpState :=
  match outcomeAt now docs writes pos with
  | .ok _ =>
    let st := { st with completed := st.completed + 1 }
    let st := addLog .success (.docUploaded (pos + 1)) none st
    publish ⟨st.progress.total, st.completed, st.failed,
      percentageOf (st.completed + st.failed) docs.length⟩ st
  | .error m =>
    let st := { st with failed := st.failed + 1 }
    let st := addLog .error (.docFailed (pos + 1)) (some m) st
    publish ⟨st.progress.total, st.completed, st.failed,
      percentageOf (st.completed + st.failed) docs.length⟩ st

/-- Run the settle events of the whole loop in the given order. -/
def runEvents (now : String) (docs : List JsDoc)
    (writes : List (Except String WriteResp)) (evs : List Nat) (st : UpState) : UpState :=
  evs.foldl (fun s pos => settle now docs writes pos s) st

/-- `documents.slice(i, i + 5)` grouping of the loop at line 248: fixed-size
groups of 5, the last group holding the remainder. -/
def chunks5 : List α → List (List α)
  | [] => []
  | x :: xs => (x :: xs.take 4) :: chunks5 (xs.drop 4)
termination_by l => l.length
decreasing_by simp; omega

/-- A valid settle order: group by group in index order (groups are the
`chunks5` of the positions `0 … n-1`), the promises within one group settling
in an arbitrary order (an arbitrary permutation of the group). -/
def ValidSched (n : Nat) (sched : List (List Nat)) : Prop :=
  List.Forall₂ List.Perm sched (chunks5 (List.range n))

/-- The `for (let i = 0; i < n; i += 5)` loop's pacing delays (lines
248 and 272–275), counted from iteration index `i`: one 200 ms delay per
iteration with `i + 5 < n`. -/
def loopDelays (n i : Nat) : Nat :=
  if i < n then (if i + 5 < n then 1 else 0) + loopDelays n (i + 5) else 0
termination_by n - i
decreasing_by omega

/-- The number of inter-group pacing delays one upload call performs. -/
def delayCount (n : Nat) : Nat := loopDelays n 0

/-- `uploadDocuments` (lines 229–287).  Oracles: `jwtRes` (JWT signing),
`tokenFetch` (token exchange), `writes` (per-document write outcomes, indexed
like `docs`), `sched` (settle order; meaningful under `ValidSched`).  Returns
the final state and the promise outcome: `.error` iff the call rejects.
The initial progress snapshot is published before the `try`; a token failure
is logged as `Upload failed` by the outer `catch` and rethrown before any
document is attempted; otherwise every group is processed (per-document
errors are caught inside the loop) and the call resolves.  The `isUploading`
boolean (set in the `finally`) is UI-only and not modelled. -/
def uploadDocuments (collectionName : String) (docs : List JsDoc)
    (projectId now : String) (jwtRes : Except String String)
    (tokenFetch : Except String HttpResp)
    (writes : List (Except String WriteResp)) (sched : List (List Nat)) :
    UpState × Except String Unit :=
  let st := publish ⟨docs.length, 0, 0, 0⟩ initialUpState
  let st := addLog .info (.gettingToken projectId) none st
  match getAccessToken jwtRes tokenFetch st with
  | (st, .error e) => (addLog .error .uploadFailed (some e) st, .error e)
  | (st, .ok _token) =>
    let st := addLog .info (.startingUpload docs.length collectionName) none st
    let st := runEvents now docs writes sched.flatten st
    let st := addLog .success (.uploadCompleted st.completed st.failed) none st
    (st, .ok ())

/-! ## Characterizing the batch loop -/

/-- The snapshot published when document `pos` settles while the counters are
`c`/`f` and the current snapshot's total is `tot`. -/
def settledProgress (now : String) (docs : List JsDoc)
    (writes : List (Except String WriteResp)) (pos tot c f : Nat) : Progress :=
  if (outcomeAt now docs writes pos).toBool then
    ⟨tot, c + 1, f, percentageOf (c + 1 + f) docs.length⟩
  else
    ⟨tot, c, f + 1, percentageOf (c + (f + 1)) docs.length⟩

/-- Full characterization of one settle step. -/
theorem settle_eq (now : String) (docs : List JsDoc)
    (writes : List (Except String WriteResp)) (pos : Nat) (st : UpState) :
    settle now docs writes pos st =
      { retained := (entryOf now docs writes pos :: st.retained).take 100,
        emitted := st.emitted ++ [entryOf now docs writes pos],
        snapshots := st.snapshots ++
          [settledProgress now docs writes pos st.progress.total st.completed st.failed],
        progress := settledProgress now docs writes pos st.progress.total st.completed st.failed,
        completed := st.completed + (if (outcomeAt now docs writes pos).toBool then 1 else 0),
        failed := st.failed + (if (outcomeAt now docs writes pos).toBool then 0 else 1) } := by
  rcases h : outcomeAt now docs writes pos with m | u <;>
    simp [settle, entryOf, settledProgress, addLog, publish, h, Except.toBool]

/-- The settle-order-generated snapshot list: one snapshot per event, counters
threaded through. -/
def snapshotsFrom (now : String) (docs : List JsDoc)
    (writes : List (Except String WriteResp)) (tot : Nat) :
    Nat → Nat → List Nat → List Progress
  | _, _, [] => []
  | c, f, pos :: evs =>
    settledProgress now docs writes pos tot c f ::
      snapshotsFrom now docs writes tot
        (c + (if (outcomeAt now docs writes pos).toBool then 1 else 0))
        (f + (if (outcomeAt now docs writes pos).toBool then 0 else 1)) evs

theorem runEvents_nil (now : String) (docs : List JsDoc) (writes) (st : UpState) :
    runEvents now docs writes [] st = st := rfl

theorem runEvents_cons (now : String) (docs : List JsDoc) (writes) (pos : Nat)
    (evs : List Nat) (st : UpState) :
    runEvents now docs writes (pos :: evs) st =
      runEvents now docs writes evs (settle now docs writes pos st) := rfl

/-- The run does not touch the snapshot `total` field. -/
theorem runEvents_total (now : String) (docs : List JsDoc) (writes) :
    ∀ (evs : List Nat) (st : UpState),
      (runEvents now docs writes evs st).progress.total = st.progress.total := by
  intro evs
  induction evs with
  | nil => intro st; rfl
  | cons pos evs ih =>
    intro st
    rw [runEvents_cons, ih, settle_eq]
    rcases h : (outcomeAt now docs writes pos).toBool <;>
      simp [settledProgress, h]

/-- Final `completed` counter: the starting value plus the number of events
whose outcome is a success. -/
theorem runEvents_completed (now : String) (docs : List JsDoc) (writes) :
    ∀ (evs : List Nat) (st : UpState),
      (runEvents now docs writes evs st).completed =
        st.completed + evs.countP (fun pos => (outcomeAt now docs writes pos).toBool) := by
  intro evs
  induction evs with
  | nil => intro st; simp [runEvents_nil]
  | cons pos evs ih =>
    intro st
    rw [runEvents_cons, ih, settle_eq]
    rcases h : (outcomeAt now docs writes pos).toBool <;>
      simp [List.countP_cons, h] <;> omega

/-- Final `failed` counter: the starting value plus the number of events whose
outcome is an error. -/
theorem runEvents_failed (now : String) (docs : List JsDoc) (writes) :
    ∀ (evs : List Nat) (st : UpState),
      (runEvents now docs writes evs st).failed =
        st.failed + evs.countP (fun pos => !(outcomeAt now docs writes pos).toBool) := by
  intro evs
  induction evs with
  | nil => intro st; simp [runEvents_nil]
  | cons pos evs ih =>
    intro st
    rw [runEvents_cons, ih, settle_eq]
    rcases h : (outcomeAt now docs writes pos).toBool <;>
      simp [List.countP_cons, h] <;> omega

/-- The emission trace of the run: one entry per event, in settle order. -/
theorem runEvents_emitted (now : String) (docs : List JsDoc) (writes) :
    ∀ (evs : List Nat) (st : UpState),
      (runEvents now docs writes evs st).emitted =
        st.emitted ++ evs.map (entryOf now docs writes) := by
  intro evs
  induction evs with
  | nil => intro st; simp [runEvents_nil]
  | cons pos evs ih =>
    intro st
    rw [runEvents_cons, ih, settle_eq]
    simp

/-- The snapshots the run publishes. -/
theorem runEvents_snapshots (now : String) (docs : List JsDoc) (writes) :
    ∀ (evs : List Nat) (st : UpState),
      (runEvents now docs writes evs st).snapshots =
        st.snapshots ++
          snapshotsFrom now docs writes st.progress.total st.completed st.failed evs := by
  intro evs
  induction evs with
  | nil => intro st; simp [runEvents_nil, snapshotsFrom]
  | cons pos evs ih =>
    intro st
    rw [runEvents_cons, ih, settle_eq]
    rcases h : (outcomeAt now docs writes pos).toBool <;>
      simp [snapshotsFrom, settledProgress, h]

/-- The final current progress is the last published snapshot (or the starting
one when there is no event). -/
theorem runEvents_progress (now : String) (docs : List JsDoc) (writes) :
    ∀ (evs : List Nat) (st : UpState),
      (runEvents now docs writes evs st).progress =
        (snapshotsFrom now docs writes st.progress.total st.completed st.failed
          evs).getLastD st.progress := by
  intro evs
  induction evs with
  | nil => intro st; simp [runEvents_nil, snapshotsFrom]
  | cons pos evs ih =>
    intro st
    rw [runEvents_cons, ih, settle_eq]
    rcases h : (outcomeAt now docs writes pos).toBool <;>
      simp [snapshotsFrom, settledProgress, h, List.getLastD_cons,
        -List.getLastD_eq_getLast?]

/-! ## Arithmetic of the percentage formula -/

theorem percentageOf_total_zero (k : Nat) : percentageOf k 0 = 0 := by
  simp [percentageOf, jsRound]
  norm_num

theorem percentageOf_zero (n : Nat) : percentageOf 0 n = 0 := by
  simp [percentageOf, jsRound]
  norm_num

theorem percentageOf_self (n : Nat) (h : n ≠ 0) : percentageOf n n = 100 := by
  have hn : (n : ℚ) ≠ 0 := Nat.cast_ne_zero.2 h
  have h1 : ((n : ℚ) / n * 100 + 1 / 2) = 201 / 2 := by rw [div_self hn]; norm_num
  have h2 : (⌊(201 : ℚ) / 2⌋ : ℤ) = 100 := by norm_num
  rw [percentageOf, jsRound, h1, h2]
  rfl

theorem percentageOf_mono {k k' : Nat} (n : Nat) (h : k ≤ k') :
    percentageOf k n ≤ percentageOf k' n := by
  rcases Nat.eq_zero_or_pos n with hn | hn
  · subst hn
    simp [percentageOf_total_zero]
  · have hq : (k : ℚ) / n * 100 + 1 / 2 ≤ (k' : ℚ) / n * 100 + 1 / 2 := by
      have hk : (k : ℚ) ≤ (k' : ℚ) := Nat.cast_le.2 h
      have hnn : (0 : ℚ) ≤ n := Nat.cast_nonneg n
      gcongr
    exact Int.toNat_le_toNat (Int.floor_le_floor hq)

/-! ## Properties of the generated snapshot list -/

theorem settledProgress_total (now : String) (docs : List JsDoc) (writes)
    (pos tot c f : Nat) :
    (settledProgress now docs writes pos tot c f).total = tot := by
  rcases h : (outcomeAt now docs writes pos).toBool <;> simp [settledProgress, h]

theorem settledProgress_cnt (now : String) (docs : List JsDoc) (writes)
    (pos tot c f : Nat) :
    (settledProgress now docs writes pos tot c f).completed +
      (settledProgress now docs writes pos tot c f).failed = c + f + 1 := by
  rcases h : (outcomeAt now docs writes pos).toBool <;>
    simp [settledProgress, h] <;> omega

theorem settledProgress_pct (now : String) (docs : List JsDoc) (writes)
    (pos tot c f : Nat) :
    (settledProgress now docs writes pos tot c f).percentage =
      percentageOf ((settledProgress now docs writes pos tot c f).completed +
        (settledProgress now docs writes pos tot c f).failed) docs.length := by
  rcases h : (outcomeAt now docs writes pos).toBool <;> simp [settledProgress, h]

theorem snapshotsFrom_total (now : String) (docs : List JsDoc) (writes) (tot : Nat) :
    ∀ (evs : List Nat) (c f : Nat),
      ∀ p ∈ snapshotsFrom now docs writes tot c f evs, p.total = tot := by
  intro evs
  induction evs with
  | nil => intro c f p hp; simp [snapshotsFrom] at hp
  | cons pos evs ih =>
    intro c f p hp
    rcases (by simpa [snapshotsFrom] using hp :
        p = settledProgress now docs writes pos tot c f ∨
          p ∈ snapshotsFrom now docs writes tot
            (c + (if (outcomeAt now docs writes pos).toBool then 1 else 0))
            (f + (if (outcomeAt now docs writes pos).toBool then 0 else 1)) evs) with
      h | h
    · rw [h]; exact settledProgress_total ..
    · exact ih _ _ p h

theorem snapshotsFrom_cnt (now : String) (docs : List JsDoc) (writes) (tot : Nat) :
    ∀ (evs : List Nat) (c f : Nat),
      ∀ p ∈ snapshotsFrom now docs writes tot c f evs,
        c + f < p.completed + p.failed ∧
          p.completed + p.failed ≤ c + f + evs.length := by
  intro evs
  induction evs with
  | nil => intro c f p hp; simp [snapshotsFrom] at hp
  | cons pos evs ih =>
    intro c f p hp
    rcases (by simpa [snapshotsFrom] using hp :
        p = settledProgress now docs writes pos tot c f ∨
          p ∈ snapshotsFrom now docs writes tot
            (c + (if (outcomeAt now docs writes pos).toBool then 1 else 0))
            (f + (if (outcomeAt now docs writes pos).toBool then 0 else 1)) evs) with
      h | h
    · rw [h]
      have := settledProgress_cnt now docs writes pos tot c f
      simp only [List.length_cons]
      omega
    · have hthis := ih _ _ p h
      rcases hout : (outcomeAt now docs writes pos).toBool <;>
        simp [hout] at hthis <;> simp only [List.length_cons] <;> omega

theorem snapshotsFrom_pct (now : String) (docs : List JsDoc) (writes) (tot : Nat) :
    ∀ (evs : List Nat) (c f : Nat),
      ∀ p ∈ snapshotsFrom now docs writes tot c f evs,
        p.percentage = percentageOf (p.completed + p.failed) docs.length := by
  intro evs
  induction evs with
  | nil => intro c f p hp; simp [snapshotsFrom] at hp
  | cons pos evs ih =>
    intro c f p hp
    rcases (by simpa [snapshotsFrom] using hp :
        p = settledProgress now docs writes pos tot c f ∨
          p ∈ snapshotsFrom now docs writes tot
            (c + (if (outcomeAt now docs writes pos).toBool then 1 else 0))
            (f + (if (outcomeAt now docs writes pos).toBool then 0 else 1)) evs) with
      h | h
    · rw [h]; exact settledProgress_pct ..
    · exact ih _ _ p h

/-- Percentages are non-decreasing along the generated snapshot list. -/
theorem snapshotsFrom_sorted (now : String) (docs : List JsDoc) (writes) (tot : Nat) :
    ∀ (evs : List Nat) (c f : Nat),
      (snapshotsFrom now docs writes tot c f evs).Pairwise
        (fun a b => a.percentage ≤ b.percentage) := by
  intro evs
  induction evs with
  | nil => intro c f; simp [snapshotsFrom]
  | cons pos evs ih =>
    intro c f
    rw [snapshotsFrom]
    refine List.Pairwise.cons ?_ (ih _ _)
    intro p hp
    have h1 := settledProgress_pct now docs writes pos tot c f
    have h2 := settledProgress_cnt now docs writes pos tot c f
    have h3 := snapshotsFrom_pct now docs writes tot evs _ _ p hp
    have h4 := (snapshotsFrom_cnt now docs writes tot evs _ _ p hp).1
    rw [h1, h3]
    apply percentageOf_mono
    rcases hout : (outcomeAt now docs writes pos).toBool <;> rw [hout] at h4 <;> omega

/-- The last generated snapshot (when at least one event exists) carries the
final counters. -/
theorem snapshotsFrom_getLastD (now : String) (docs : List JsDoc) (writes) (tot : Nat) :
    ∀ (evs : List Nat) (c f : Nat) (d : Progress), evs ≠ [] →
      ((snapshotsFrom now docs writes tot c f evs).getLastD d).total = tot ∧
        ((snapshotsFrom now docs writes tot c f evs).getLastD d).completed +
            ((snapshotsFrom now docs writes tot c f evs).getLastD d).failed =
          c + f + evs.length ∧
        ((snapshotsFrom now docs writes tot c f evs).getLastD d).percentage =
          percentageOf (c + f + evs.length) docs.length := by
  intro evs
  induction evs with
  | nil => intro c f d h; exact absurd rfl h
  | cons pos evs ih =>
    intro c f d _
    rw [snapshotsFrom, List.getLastD_cons]
    rcases hev : evs with _ | ⟨pos2, evs2⟩
    · subst hev
      have h1 := settledProgress_total now docs writes pos tot c f
      have h2 := settledProgress_cnt now docs writes pos tot c f
      have h3 := settledProgress_pct now docs writes pos tot c f
      have hL : ∀ g : Progress,
          (snapshotsFrom now docs writes tot
            (c + (if (outcomeAt now docs writes pos).toBool then 1 else 0))
            (f + (if (outcomeAt now docs writes pos).toBool then 0 else 1)) []).getLastD g
            = g := fun g => rfl
      rw [hL]
      refine ⟨h1, ?_, ?_⟩
      · simpa using h2
      · rw [h3, h2]
        norm_num
    · subst hev
      have hrec := ih (c + (if (outcomeAt now docs writes pos).toBool then 1 else 0))
        (f + (if (outcomeAt now docs writes pos).toBool then 0 else 1))
        (settledProgress now docs writes pos tot c f) (by simp)
      refine ⟨hrec.1, ?_, ?_⟩
      · rcases hout : (outcomeAt now docs writes pos).toBool <;>
          simp [hout] at hrec ⊢ <;> omega
      · rcases hout : (outcomeAt now docs writes pos).toBool <;>
          simp [hout] at hrec ⊢ <;>
          rw [hrec.2.2] <;> (congr 1) <;> omega

/-! ## Grouping and pacing -/

theorem chunks5_nil : chunks5 ([] : List α) = [] := by simp [chunks5]

theorem chunks5_flatten : ∀ (l : List α), (chunks5 l).flatten = l := by
  intro l
  induction l using chunks5.induct with
  | case1 => rw [chunks5_nil]; rfl
  | case2 x xs ih => simp [chunks5, ih]

theorem chunks5_length : ∀ (l : List α), (chunks5 l).length = (l.length + 4) / 5 := by
  intro l
  induction l using chunks5.induct with
  | case1 => rw [chunks5_nil]; simp
  | case2 x xs ih =>
    simp only [chunks5, List.length_cons, ih, List.length_drop]
    omega

theorem chunks5_eq_nil_iff (l : List α) : chunks5 l = [] ↔ l = [] := by
  cases l <;> simp [chunks5]

theorem chunks5_mem_length (l : List α) :
    ∀ c ∈ chunks5 l, 0 < c.length ∧ c.length ≤ 5 := by
  induction l using chunks5.induct with
  | case1 => simp [chunks5]
  | case2 x xs ih =>
    intro c hc
    rcases (by simpa [chunks5] using hc :
        c = x :: xs.take 4 ∨ c ∈ chunks5 (xs.drop 4)) with h | h
    · subst h
      simp only [List.length_cons, List.length_take]
      omega
    · exact ih c h

theorem chunks5_dropLast_length (l : List α) :
    ∀ c ∈ (chunks5 l).dropLast, c.length = 5 := by
  induction l using chunks5.induct with
  | case1 => simp [chunks5]
  | case2 x xs ih =>
    intro c hc
    rw [chunks5] at hc
    rcases hrest : chunks5 (xs.drop 4) with _ | ⟨g, gs⟩
    · rw [hrest] at hc
      simp at hc
    · rw [hrest] at hc
      rcases (by simpa using hc : c = x :: xs.take 4 ∨ c ∈ (g :: gs).dropLast) with h | h
      · subst h
        have hxs : xs.drop 4 ≠ [] := by
          intro hnil
          rw [hnil] at hrest
          simp [chunks5] at hrest
        have : 4 ≤ xs.length := by
          by_contra hlt
          exact hxs (List.drop_eq_nil_of_le (by omega))
        simp only [List.length_cons, List.length_take]
        omega
      · rw [← hrest] at h
        exact ih c h

theorem loopDelays_formula : ∀ n i : Nat, loopDelays n i = (n - i + 4) / 5 - 1 := by
  suffices H : ∀ m n i, n - i ≤ m → loopDelays n i = (n - i + 4) / 5 - 1 from
    fun n i => H (n - i) n i le_rfl
  intro m
  induction m with
  | zero =>
    intro n i h
    rw [loopDelays, if_neg (by omega)]
    omega
  | succ m ih =>
    intro n i h
    rw [loopDelays]
    by_cases hlt : i < n
    · rw [if_pos hlt, ih n (i + 5) (by omega)]
      by_cases h5 : i + 5 < n <;> simp [h5] <;> omega
    · rw [if_neg hlt]
      omega

/-- The number of pacing delays is one per group boundary. -/
theorem delayCount_eq (l : List α) : delayCount l.length = (chunks5 l).length - 1 := by
  rw [delayCount, loopDelays_formula, chunks5_length]
  omega

/-! ## Valid schedules -/

theorem validSched_self (n : Nat) : ValidSched n (chunks5 (List.range n)) :=
  List.forall₂_same.2 fun x _ => List.Perm.refl x

theorem validSched_flatten_perm {n : Nat} {sched : List (List Nat)}
    (h : ValidSched n sched) : sched.flatten.Perm (List.range n) := by
  have hp := List.Perm.flatten_congr h
  rwa [chunks5_flatten] at hp

theorem validSched_flatten_length {n : Nat} {sched : List (List Nat)}
    (h : ValidSched n sched) : sched.flatten.length = n := by
  rw [(validSched_flatten_perm h).length_eq, List.length_range]

theorem countP_bool_split (p : α → Bool) (l : List α) :
    l.countP p + l.countP (fun a => !(p a)) = l.length := by
  induction l with
  | nil => simp
  | cons a l ih => rcases h : p a <;> simp [List.countP_cons, h] <;> omega

/-! ## The two global outcomes of `uploadDocuments` -/

/-- The state reached after a successful token acquisition, just before the
batch loop: the initial snapshot and the five pre-loop log entries. -/
def preStateOk (collectionName projectId : String) (n : Nat) : UpState :=
  addLog .info (.startingUpload n collectionName) none
    (addLog .success .tokenObtained none
      (addLog .info .requestingToken none
        (addLog .info .creatingJWT none
          (addLog .info (.gettingToken projectId) none
            (publish ⟨n, 0, 0, 0⟩ initialUpState)))))

/-- When token acquisition succeeds, `uploadDocuments` runs every scheduled
settle event from `preStateOk`, logs the completion summary, and resolves. -/
theorem uploadDocuments_ok (collectionName projectId now t : String)
    (docs : List JsDoc) (jwtRes : Except String String)
    (tokenFetch : Except String HttpResp) (writes : List (Except String WriteResp))
    (sched : List (List Nat)) (ht : tokenResult jwtRes tokenFetch = .ok t) :
    uploadDocuments collectionName docs projectId now jwtRes tokenFetch writes sched =
      (addLog .success
        (.uploadCompleted
          (runEvents now docs writes sched.flatten
            (preStateOk collectionName projectId docs.length)).completed
          (runEvents now docs writes sched.flatten
            (preStateOk collectionName projectId docs.length)).failed)
        none
        (runEvents now docs writes sched.flatten
          (preStateOk collectionName projectId docs.length)),
       .ok ()) := by
  rcases jwtRes with e | j
  · simp [tokenResult] at ht
  · rcases tokenFetch with e | resp
    · simp [tokenResult] at ht
    · rcases hok : resp.ok
      · rw [tokenResult] at ht
        simp [hok] at ht
      · simp [uploadDocuments, getAccessToken, hok, preStateOk]

theorem uploadOk_result (collectionName projectId now t : String) (docs : List JsDoc)
    (jwtRes : Except String String) (tokenFetch : Except String HttpResp)
    (writes : List (Except String WriteResp)) (sched : List (List Nat))
    (st : UpState) (r : Except String Unit)
    (hrun : uploadDocuments collectionName docs projectId now jwtRes tokenFetch writes
      sched = (st, r))
    (ht : tokenResult jwtRes tokenFetch = .ok t) : r = .ok () := by
  rw [uploadDocuments_ok collectionName projectId now t docs jwtRes tokenFetch writes
    sched ht] at hrun
  exact (Prod.mk.injEq ..).mp hrun.symm |>.2

theorem uploadOk_completed (collectionName projectId now t : String) (docs : List JsDoc)
    (jwtRes : Except String String) (tokenFetch : Except String HttpResp)
    (writes : List (Except String WriteResp)) (sched : List (List Nat))
    (st : UpState) (r : Except String Unit)
    (hrun : uploadDocuments collectionName docs projectId now jwtRes tokenFetch writes
      sched = (st, r))
    (ht : tokenResult jwtRes tokenFetch = .ok t) :
    st.completed = sched.flatten.countP (fun pos => (outcomeAt now docs writes pos).toBool) := by
  rw [uploadDocuments_ok collectionName projectId now t docs jwtRes tokenFetch writes
    sched ht] at hrun
  obtain rfl : _ = st := (Prod.mk.injEq ..).mp hrun.symm |>.1.symm
  show (runEvents now docs writes sched.flatten
    (preStateOk collectionName projectId docs.length)).completed = _
  rw [runEvents_completed]
  simp [preStateOk, addLog, publish, initialUpState]

theorem uploadOk_failed (collectionName projectId now t : String) (docs : List JsDoc)
    (jwtRes : Except String String) (tokenFetch : Except String HttpResp)
    (writes : List (Except String WriteResp)) (sched : List (List Nat))
    (st : UpState) (r : Except String Unit)
    (hrun : uploadDocuments collectionName docs projectId now jwtRes tokenFetch writes
      sched = (st, r))
    (ht : tokenResult jwtRes tokenFetch = .ok t) :
    st.failed = sched.flatten.countP (fun pos => !(outcomeAt now docs writes pos).toBool) := by
  rw [uploadDocuments_ok collectionName projectId now t docs jwtRes tokenFetch writes
    sched ht] at hrun
  obtain rfl : _ = st := (Prod.mk.injEq ..).mp hrun.symm |>.1.symm
  show (runEvents now docs writes sched.flatten
    (preStateOk collectionName projectId docs.length)).failed = _
  rw [runEvents_failed]
  simp [preStateOk, addLog, publish, initialUpState]

theorem uploadOk_emitted (collectionName projectId now t : String) (docs : List JsDoc)
    (jwtRes : Except String String) (tokenFetch : Except String HttpResp)
    (writes : List (Except String WriteResp)) (sched : List (List Nat))
    (st : UpState) (r : Except String Unit)
    (hrun : uploadDocuments collectionName docs projectId now jwtRes tokenFetch writes
      sched = (st, r))
    (ht : tokenResult jwtRes tokenFetch = .ok t) :
    st.emitted =
      ⟨.info, .gettingToken projectId, none⟩ :: ⟨.info, .creatingJWT, none⟩ ::
        ⟨.info, .requestingToken, none⟩ :: ⟨.success, .tokenObtained, none⟩ ::
        ⟨.info, .startingUpload docs.length collectionName, none⟩ ::
        (sched.flatten.map (entryOf now docs writes) ++
          [⟨.success, .uploadCompleted st.completed st.failed, none⟩]) := by
  rw [uploadDocuments_ok collectionName projectId now t docs jwtRes tokenFetch writes
    sched ht] at hrun
  obtain rfl : _ = st := (Prod.mk.injEq ..).mp hrun.symm |>.1.symm
  show (runEvents now docs writes sched.flatten
      (preStateOk collectionName projectId docs.length)).emitted ++ _ = _
  rw [runEvents_emitted]
  simp [preStateOk, addLog, publish, initialUpState]

theorem uploadOk_snapshots (collectionName projectId now t : String) (docs : List JsDoc)
    (jwtRes : Except String String) (tokenFetch : Except String HttpResp)
    (writes : List (Except String WriteResp)) (sched : List (List Nat))
    (st : UpState) (r : Except String Unit)
    (hrun : uploadDocuments collectionName docs projectId now jwtRes tokenFetch writes
      sched = (st, r))
    (ht : tokenResult jwtRes tokenFetch = .ok t) :
    st.snapshots = ⟨docs.length, 0, 0, 0⟩ ::
      snapshotsFrom now docs writes docs.length 0 0 sched.flatten := by
  rw [uploadDocuments_ok collectionName projectId now t docs jwtRes tokenFetch writes
    sched ht] at hrun
  obtain rfl : _ = st := (Prod.mk.injEq ..).mp hrun.symm |>.1.symm
  show (runEvents now docs writes sched.flatten
      (preStateOk collectionName projectId docs.length)).snapshots = _
  rw [runEvents_snapshots]
  rfl

theorem uploadOk_progress (collectionName projectId now t : String) (docs : List JsDoc)
    (jwtRes : Except String String) (tokenFetch : Except String HttpResp)
    (writes : List (Except String WriteResp)) (sched : List (List Nat))
    (st : UpState) (r : Except String Unit)
    (hrun : uploadDocuments collectionName docs projectId now jwtRes tokenFetch writes
      sched = (st, r))
    (ht : tokenResult jwtRes tokenFetch = .ok t) :
    st.progress = (snapshotsFrom now docs writes docs.length 0 0
      sched.flatten).getLastD ⟨docs.length, 0, 0, 0⟩ := by
  rw [uploadDocuments_ok collectionName projectId now t docs jwtRes tokenFetch writes
    sched ht] at hrun
  obtain rfl : _ = st := (Prod.mk.injEq ..).mp hrun.symm |>.1.symm
  show (runEvents now docs writes sched.flatten
      (preStateOk collectionName projectId docs.length)).progress = _
  rw [runEvents_progress]
  rfl

/-- The settle log entries determine the document position. -/
theorem entryOf_injective (now : String) (docs : List JsDoc)
    (writes : List (Except String WriteResp)) :
    Function.Injective (entryOf now docs writes) := by
  intro p q h
  unfold entryOf at h
  rcases hp : outcomeAt now docs writes p with mp | up <;>
    rcases hq : outcomeAt now docs writes q with mq | uq <;>
    rw [hp, hq] at h <;> simp [LogEntry.mk.injEq] at h <;> omega

/-! ### C3: per-document outcome isolation -/

/-- C3: with token acquisition succeeded, every document is attempted: each
failing document (encoding error, non-2xx write, network error) adds exactly
1 to `failed` and contributes exactly one error log entry carrying its
1-based position and the error text; each successful write adds exactly 1 to
`completed` and contributes exactly one success entry — independently of the
other documents in its own and later groups. -/
theorem claim_C3_per_document_isolation
    (collectionName projectId now t : String) (docs : List JsDoc)
    (jwtRes : Except String String) (tokenFetch : Except String HttpResp)
    (writes : List (Except String WriteResp)) (sched : List (List Nat))
    (st : UpState) (r : Except String Unit)
    (hrun : uploadDocuments collectionName docs projectId now jwtRes tokenFetch writes
      sched = (st, r))
    (ht : tokenResult jwtRes tokenFetch = .ok t)
    (hs : ValidSched docs.length sched) :
    st.completed = (List.range docs.length).countP
        (fun pos => (outcomeAt now docs writes pos).toBool) ∧
      st.failed = (List.range docs.length).countP
        (fun pos => !(outcomeAt now docs writes pos).toBool) ∧
      ∀ pos, pos < docs.length →
        (∀ m, outcomeAt now docs writes pos = .error m →
          st.emitted.count ⟨.error, .docFailed (pos + 1), some m⟩ = 1) ∧
        (outcomeAt now docs writes pos = .ok () →
          st.emitted.count ⟨.success, .docUploaded (pos + 1), none⟩ = 1) := by
  have hperm := validSched_flatten_perm hs
  refine ⟨?_, ?_, ?_⟩
  · rw [uploadOk_completed collectionName projectId now t docs jwtRes tokenFetch writes
      sched st r hrun ht]
    exact hperm.countP_eq _
  · rw [uploadOk_failed collectionName projectId now t docs jwtRes tokenFetch writes
      sched st r hrun ht]
    exact hperm.countP_eq _
  · intro pos hpos
    have hcount1 : sched.flatten.count pos = 1 := by
      rw [hperm.count_eq]
      exact List.count_eq_one_of_mem (List.nodup_range _) (List.mem_range.2 hpos)
    have hemit := uploadOk_emitted collectionName projectId now t docs jwtRes tokenFetch
      writes sched st r hrun ht
    constructor
    · intro m hm
      have hent : entryOf now docs writes pos = ⟨.error, .docFailed (pos + 1), some m⟩ := by
        simp [entryOf, hm]
      rw [hemit]
      rw [← hent, List.count_cons, List.count_cons, List.count_cons, List.count_cons,
        List.count_cons, List.count_append,
        List.count_map_of_injective _ _ (entryOf_injective now docs writes) _, hcount1]
      rcases houtq : outcomeAt now docs writes pos with mq | uq <;>
        simp [entryOf, houtq] at hent ⊢
    · intro hok
      have hent : entryOf now docs writes pos = ⟨.success, .docUploaded (pos + 1), none⟩ := by
        simp [entryOf, hok]
      rw [hemit]
      rw [← hent, List.count_cons, List.count_cons, List.count_cons, List.count_cons,
        List.count_cons, List.count_append,
        List.count_map_of_injective _ _ (entryOf_injective now docs writes) _, hcount1]
      rcases houtq : outcomeAt now docs writes pos with mq | uq <;>
        simp [entryOf, houtq] at hent ⊢

/-! ### C6: counter conservation -/

/-- C6: with token acquisition succeeded, the call resolves, every published
snapshot satisfies `completed + failed ≤ total` (= the number of submitted
documents), and at resolution `completed + failed` equals that number
exactly. -/
theorem claim_C6_counter_conservation
    (collectionName projectId now t : String) (docs : List JsDoc)
    (jwtRes : Except String String) (tokenFetch : Except String HttpResp)
    (writes : List (Except String WriteResp)) (sched : List (List Nat))
    (st : UpState) (r : Except String Unit)
    (hrun : uploadDocuments collectionName docs projectId now jwtRes tokenFetch writes
      sched = (st, r))
    (ht : tokenResult jwtRes tokenFetch = .ok t)
    (hs : ValidSched docs.length sched) :
    r = .ok () ∧ st.completed + st.failed = docs.length ∧
      ∀ p ∈ st.snapshots, p.completed + p.failed ≤ docs.length := by
  refine ⟨uploadOk_result collectionName projectId now t docs jwtRes tokenFetch writes
    sched st r hrun ht, ?_, ?_⟩
  · rw [uploadOk_completed collectionName projectId now t docs jwtRes tokenFetch writes
      sched st r hrun ht,
      uploadOk_failed collectionName projectId now t docs jwtRes tokenFetch writes
      sched st r hrun ht,
      countP_bool_split]
    exact validSched_flatten_length hs
  · intro p hp
    rw [uploadOk_snapshots collectionName projectId now t docs jwtRes tokenFetch writes
      sched st r hrun ht] at hp
    rcases (by simpa using hp :
        p = (⟨docs.length, 0, 0, 0⟩ : Progress) ∨
          p ∈ snapshotsFrom now docs writes docs.length 0 0 sched.flatten) with h | h
    · rw [h]
      simp
    · have := (snapshotsFrom_cnt now docs writes docs.length sched.flatten 0 0 p h).2
      rw [validSched_flatten_length hs] at this
      omega

/-! ### C7: percentage formula, monotonicity, terminal value -/

/-- C7: with token acquisition succeeded, every published snapshot satisfies
`percentage = round(100 * (completed + failed) / total)` (0 when `total = 0`),
the percentage is non-decreasing across successive snapshots, and the final
progress percentage is 100 when `total > 0` and 0 when `total = 0`. -/
theorem claim_C7_percentage_discipline
    (collectionName projectId now t : String) (docs : List JsDoc)
    (jwtRes : Except String String) (tokenFetch : Except String HttpResp)
    (writes : List (Except String WriteResp)) (sched : List (List Nat))
    (st : UpState) (r : Except String Unit)
    (hrun : uploadDocuments collectionName docs projectId now jwtRes tokenFetch writes
      sched = (st, r))
    (ht : tokenResult jwtRes tokenFetch = .ok t)
    (hs : ValidSched docs.length sched) :
    (∀ p ∈ st.snapshots, p.percentage = percentageOf (p.completed + p.failed) p.total) ∧
      st.snapshots.Pairwise (fun a b => a.percentage ≤ b.percentage) ∧
      st.progress.percentage = (if docs.length = 0 then 0 else 100) := by
  have hsnap := uploadOk_snapshots collectionName projectId now t docs jwtRes tokenFetch
    writes sched st r hrun ht
  have hlen := validSched_flatten_length hs
  refine ⟨?_, ?_, ?_⟩
  · intro p hp
    rw [hsnap] at hp
    rcases (by simpa using hp :
        p = (⟨docs.length, 0, 0, 0⟩ : Progress) ∨
          p ∈ snapshotsFrom now docs writes docs.length 0 0 sched.flatten) with h | h
    · rw [h]
      exact (percentageOf_zero docs.length).symm
    · have hpct := snapshotsFrom_pct now docs writes docs.length sched.flatten 0 0 p h
      have htot := snapshotsFrom_total now docs writes docs.length sched.flatten 0 0 p h
      rw [hpct, htot]
  · rw [hsnap]
    refine List.Pairwise.cons ?_ (snapshotsFrom_sorted now docs writes docs.length
      sched.flatten 0 0)
    intro p _
    exact Nat.zero_le _
  · have hprog := uploadOk_progress collectionName projectId now t docs jwtRes tokenFetch
      writes sched st r hrun ht
    rcases Nat.eq_zero_or_pos docs.length with hn | hn
    · have hsched : sched = [] := by
        have := hs
        rw [ValidSched, hn, List.range_zero, chunks5_nil] at this
        cases this
        rfl
      rw [hprog, hsched]
      simp [snapshotsFrom, hn]
    · have hne : sched.flatten ≠ [] := by
        intro hnil
        rw [hnil] at hlen
        simp at hlen
        omega
      have := (snapshotsFrom_getLastD now docs writes docs.length sched.flatten 0 0
        ⟨docs.length, 0, 0, 0⟩ hne).2.2
      rw [hprog, this, hlen]
      rw [if_neg (by omega)]
      simpa using percentageOf_self docs.length (by omega)

/-! ## The pre-flight failure path -/

/-- When token acquisition fails, `uploadDocuments` rejects with that single
error before any settle event: the only published snapshot is the initial
one, both counters are 0, and the log trace is the two or three pre-flight
`info` entries followed by the `tokenFailed` and `uploadFailed` error
entries. -/
theorem uploadDocuments_err (collectionName projectId now : String) (docs : List JsDoc)
    (jwtRes : Except String String) (tokenFetch : Except String HttpResp)
    (writes : List (Except String WriteResp)) (sched : List (List Nat))
    (e : String) (ht : tokenResult jwtRes tokenFetch = .error e) :
    ∃ mid : List LogEntry,
      (mid = [] ∨ mid = [⟨.info, .requestingToken, none⟩]) ∧
      uploadDocuments collectionName docs projectId now jwtRes tokenFetch writes sched =
        ({ retained := ⟨.error, .uploadFailed, some e⟩ :: ⟨.error, .tokenFailed, some e⟩ ::
              mid.reverse ++
              [⟨.info, .creatingJWT, none⟩, ⟨.info, .gettingToken projectId, none⟩],
           emitted := ⟨.info, .gettingToken projectId, none⟩ ::
              ⟨.info, .creatingJWT, none⟩ :: mid ++
              [⟨.error, .tokenFailed, some e⟩, ⟨.error, .uploadFailed, some e⟩],
           snapshots := [⟨docs.length, 0, 0, 0⟩],
           progress := ⟨docs.length, 0, 0, 0⟩,
           completed := 0,
           failed := 0 }, .error e) := by
  rcases jwtRes with e0 | jwt
  · obtain rfl : e0 = e := by simpa [tokenResult] using ht
    refine ⟨[], Or.inl rfl, ?_⟩
    simp [uploadDocuments, getAccessToken, addLog, publish, initialUpState]
  · rcases tokenFetch with e0 | resp
    · obtain rfl : e0 = e := by simpa [tokenResult] using ht
      refine ⟨[⟨.info, .requestingToken, none⟩], Or.inr rfl, ?_⟩
      simp [uploadDocuments, getAccessToken, addLog, publish, initialUpState]
    · rcases hok : resp.ok
      · obtain rfl : ("OAuth failed (" ++ toString resp.status ++ "): " ++ resp.body) = e := by
          rw [tokenResult] at ht
          simpa [hok] using ht
        refine ⟨[⟨.info, .requestingToken, none⟩], Or.inr rfl, ?_⟩
        simp [uploadDocuments, getAccessToken, addLog, publish, initialUpState, hok]
      · rw [tokenResult] at ht
        simp [hok] at ht

/-! ### C4: fatal pre-flight failures abort before any write -/

/-- C4: if JWT creation or the token exchange fails, the call rejects with
that single error while `completed = failed = 0`, only the initial snapshot
was published, and no per-document log entry exists (no write was attempted);
otherwise the call resolves with `completed + failed` covering every
document. -/
theorem claim_C4_preflight_abort
    (collectionName projectId now : String) (docs : List JsDoc)
    (jwtRes : Except String String) (tokenFetch : Except String HttpResp)
    (writes : List (Except String WriteResp)) (sched : List (List Nat))
    (st : UpState) (r : Except String Unit)
    (hrun : uploadDocuments collectionName docs projectId now jwtRes tokenFetch writes
      sched = (st, r)) :
    (∀ e, tokenResult jwtRes tokenFetch = .error e →
      r = .error e ∧ st.completed = 0 ∧ st.failed = 0 ∧
        st.snapshots = [⟨docs.length, 0, 0, 0⟩] ∧
        ∀ entry ∈ st.emitted, ∀ k : Nat,
          entry.msg ≠ .docUploaded k ∧ entry.msg ≠ .docFailed k) ∧
      (∀ t, tokenResult jwtRes tokenFetch = .ok t → ValidSched docs.length sched →
        r = .ok () ∧ st.completed + st.failed = docs.length) := by
  constructor
  · intro e ht
    obtain ⟨mid, hmid, heq⟩ := uploadDocuments_err collectionName projectId now docs
      jwtRes tokenFetch writes sched e ht
    rw [heq] at hrun
    injection hrun with h1 h2
    subst h1
    refine ⟨h2.symm, rfl, rfl, rfl, ?_⟩
    intro entry hentry k
    rcases hmid with rfl | rfl
    · simp at hentry
      rcases hentry with rfl | rfl | rfl | rfl <;> simp
    · simp at hentry
      rcases hentry with rfl | rfl | rfl | rfl | rfl <;> simp
  · intro t ht hs
    refine ⟨uploadOk_result collectionName projectId now t docs jwtRes tokenFetch writes
      sched st r hrun ht, ?_⟩
    rw [uploadOk_completed collectionName projectId now t docs jwtRes tokenFetch writes
      sched st r hrun ht,
      uploadOk_failed collectionName projectId now t docs jwtRes tokenFetch writes
      sched st r hrun ht,
      countP_bool_split]
    exact validSched_flatten_length hs

/-! ### C10: the `total` field is frozen after the initial snapshot -/

/-- C10: in every run (token failure or not), the first published snapshot is
`{total := docs.length, 0, 0, 0}` and every published snapshot carries
`total = docs.length`: per-document updates never change `total`. -/
theorem claim_C10_total_frame
    (collectionName projectId now : String) (docs : List JsDoc)
    (jwtRes : Except String String) (tokenFetch : Except String HttpResp)
    (writes : List (Except String WriteResp)) (sched : List (List Nat))
    (st : UpState) (r : Except String Unit)
    (hrun : uploadDocuments collectionName docs projectId now jwtRes tokenFetch writes
      sched = (st, r)) :
    st.snapshots.head? = some ⟨docs.length, 0, 0, 0⟩ ∧
      ∀ p ∈ st.snapshots, p.total = docs.length := by
  rcases htr : tokenResult jwtRes tokenFetch with e | tok
  · obtain ⟨mid, hmid, heq⟩ := uploadDocuments_err collectionName projectId now docs
      jwtRes tokenFetch writes sched e htr
    rw [heq] at hrun
    injection hrun with h1 h2
    subst h1
    refine ⟨rfl, ?_⟩
    intro p hp
    simp at hp
    rw [hp]
  · have hsnap := uploadOk_snapshots collectionName projectId now tok docs jwtRes
      tokenFetch writes sched st r hrun htr
    rw [hsnap]
    refine ⟨rfl, ?_⟩
    intro p hp
    rcases (by simpa using hp :
        p = (⟨docs.length, 0, 0, 0⟩ : Progress) ∨
          p ∈ snapshotsFrom now docs writes docs.length 0 0 sched.flatten) with h | h
    · rw [h]
    · exact snapshotsFrom_total now docs writes docs.length sched.flatten 0 0 p h

/-! ### C8: grouping and pacing -/

/-- C8: the loop partitions the `n` documents into `⌈n/5⌉` groups — all of
size 5 except a final remainder group — whose concatenation in order is the
original list, and performs exactly one pacing delay per group boundary; in
particular 12 documents form 3 groups of sizes 5, 5, 2 with exactly 2
delays. -/
theorem claim_C8_grouping (l : List JsDoc) :
    (chunks5 l).length = (l.length + 4) / 5 ∧
      (chunks5 l).flatten = l ∧
      (∀ c ∈ (chunks5 l).dropLast, c.length = 5) ∧
      (∀ c ∈ chunks5 l, 0 < c.length ∧ c.length ≤ 5) ∧
      delayCount l.length = (chunks5 l).length - 1 ∧
      (chunks5 ([[], [], [], [], [], [], [], [], [], [], [], []] : List JsDoc)).map
        List.length = [5, 5, 2] ∧
      delayCount 12 = 2 := by
  refine ⟨chunks5_length l, chunks5_flatten l, chunks5_dropLast_length l,
    chunks5_mem_length l, delayCount_eq l, ?_, ?_⟩
  · simp [chunks5]
  · rw [delayCount, loopDelays_formula]

/-! ### C5: HTTP 401 on the token endpoint -/

/-- C5 fails on the code: with a 401 token response the call does reject and
no `success` entry exists, but the log holds **two** error entries, not
exactly one — `getAccessToken`'s catch logs `Failed to get access token` and
then `uploadDocuments`' catch logs `Upload failed`. -/
theorem claim_C5_token_401_counterexample :
    (uploadDocuments "c" [] "p" "" (.ok "jwt")
        (.ok ⟨false, 401, "Unauthorized", ""⟩) [] []).2 =
      .error "OAuth failed (401): Unauthorized" ∧
      ((uploadDocuments "c" [] "p" "" (.ok "jwt")
        (.ok ⟨false, 401, "Unauthorized", ""⟩) [] []).1.retained.countP
          (fun entry => entry.kind == LogKind.error)) = 2 ∧
      ((uploadDocuments "c" [] "p" "" (.ok "jwt")
        (.ok ⟨false, 401, "Unauthorized", ""⟩) [] []).1.retained.countP
          (fun entry => entry.kind == LogKind.success)) = 0 :=
  ⟨rfl, rfl, rfl⟩

/-- C5 (amended): when the token endpoint responds non-2xx (e.g. HTTP 401),
the call rejects with `OAuth failed (<status>): <body>` and the retained log
holds exactly **two** error entries — the token failure and the final upload
failure — and no success entry. -/
theorem claim_C5_token_401_amended
    (collectionName projectId now jwt : String) (docs : List JsDoc)
    (resp : HttpResp) (writes : List (Except String WriteResp))
    (sched : List (List Nat)) (st : UpState) (r : Except String Unit)
    (hrun : uploadDocuments collectionName docs projectId now (.ok jwt) (.ok resp)
      writes sched = (st, r))
    (hnok : resp.ok = false) :
    r = .error ("OAuth failed (" ++ toString resp.status ++ "): " ++ resp.body) ∧
      st.retained.countP (fun entry => entry.kind == LogKind.error) = 2 ∧
      st.retained.countP (fun entry => entry.kind == LogKind.success) = 0 := by
  have ht : tokenResult (.ok jwt) (.ok resp) =
      .error ("OAuth failed (" ++ toString resp.status ++ "): " ++ resp.body) := by
    simp [tokenResult, hnok]
  obtain ⟨mid, hmid, heq⟩ := uploadDocuments_err collectionName projectId now docs
    (.ok jwt) (.ok resp) writes sched _ ht
  rw [heq] at hrun
  injection hrun with h1 h2
  subst h1
  refine ⟨h2.symm, ?_, ?_⟩ <;> rcases hmid with rfl | rfl <;> simp [List.countP_cons]

/-! ## JSONL parsing (`parseJsonlFile`, src/unnamed/part_005, lines 89–141)

`JSON.parse` is a platform builtin; it is modelled below by a recursive
descent parser of the JSON grammar over the character list (strict number
grammar, objects/arrays/strings/keywords; string escape sequences are
rejected rather than decoded — the inputs considered contain none).  The
per-line error strings of the source interpolate the engine-specific
`JSON.parse` exception text, so line errors are kept structured here: which
line failed, and whether it failed to parse or parsed to a non-object. -/

/-- JSON whitespace. -/
def jsonWs (c : Char) : Bool := c == ' ' || c == '\t' || c == '\n' || c == '\r'

/-- Skip JSON whitespace. -/
def skipWs (cs : List Char) : List Char := cs.dropWhile jsonWs

/-- A strict JSON number: `-? (0 | [1-9][0-9]*) (. [0-9]+)? ([eE][+-]?[0-9]+)?`,
returning its exact rational value and the rest of the input. -/
def parseJsonNumber (cs : List Char) : Option (ℚ × List Char) :=
  let signAndRest : Int × List Char :=
    match cs with
    | '-' :: t => (-1, t)
    | _ => (1, cs)
  let sign := signAndRest.1
  let cs1 := signAndRest.2
  let intAndRest : Option (List Char × List Char) :=
    match cs1 with
    | '0' :: rest => some (['0'], rest)
    | c :: rest =>
      if c.isDigit then some (c :: rest.takeWhile Char.isDigit, rest.dropWhile Char.isDigit)
      else none
    | [] => none
  match intAndRest with
  | none => none
  | some (intPart, cs2) =>
    let fracAndRest : Option (List Char × List Char) :=
      match cs2 with
      | '.' :: t =>
        let ds := t.takeWhile Char.isDigit
        if ds = [] then none else some (ds, t.dropWhile Char.isDigit)
      | _ => some ([], cs2)
    match fracAndRest with
    | none => none
    | some (fracPart, cs3) =>
      let expAndRest : Option (Int × List Char) :=
        match cs3 with
        | e :: t =>
          if e = 'e' ∨ e = 'E' then
            let esAndRest : Int × List Char :=
              match t with
              | '-' :: u => (-1, u)
              | '+' :: u => (1, u)
              | _ => (1, t)
            let ds := esAndRest.2.takeWhile Char.isDigit
            if ds = [] then none
            else some (esAndRest.1 * (digitsVal ds : Int), esAndRest.2.dropWhile Char.isDigit)
          else some (0, cs3)
        | [] => some (0, cs3)
      match expAndRest with
      | none => none
      | some (exp, cs4) =>
        some (mkRat (sign * (digitsVal intPart * 10 ^ fracPart.length + digitsVal fracPart) *
            10 ^ exp.toNat)
          (10 ^ (fracPart.length + (-exp).toNat)), cs4)

/-- A JSON string literal without escape sequences (an escape makes the parse
fail; the modelled inputs contain none). -/
def parseJsonStringLit (cs : List Char) : Option (String × List Char) :=
  match cs with
  | '"' :: rest =>
    let content := rest.takeWhile (fun c => c != '"' && c != '\\')
    match rest.dropWhile (fun c => c != '"' && c != '\\') with
    | '"' :: rest2 => some (⟨content⟩, rest2)
    | _ => none
  | _ => none

mutual

/-- One JSON value (leading whitespace allowed), with recursion fuel. -/
def parseJsonValue : Nat → List Char → Option (JsValue × List Char)
  | 0, _ => none
  | fuel + 1, cs0 =>
    let cs := skipWs cs0
    match cs with
    | 'n' :: 'u' :: 'l' :: 'l' :: rest => some (.null, rest)
    | 't' :: 'r' :: 'u' :: 'e' :: rest => some (.bool true, rest)
    | 'f' :: 'a' :: 'l' :: 's' :: 'e' :: rest => some (.bool false, rest)
    | '"' :: _ =>
      match parseJsonStringLit cs with
      | some (s, rest) => some (.str s, rest)
      | none => none
    | '[' :: rest =>
      match skipWs rest with
      | ']' :: rest2 => some (.arr [], rest2)
      | _ =>
        match parseJsonElems fuel rest with
        | some (xs, rest2) => some (.arr xs, rest2)
        | none => none
    | '{' :: rest =>
      match skipWs rest with
      | '}' :: rest2 => some (.obj [], rest2)
      | _ =>
        match parseJsonMembers fuel rest with
        | some (fs, rest2) => some (.obj fs, rest2)
        | none => none
    | _ =>
      match parseJsonNumber cs with
      | some (q, rest) => some (.num q, rest)
      | none => none

/-- Comma-separated array elements up to the closing `]`. -/
def parseJsonElems : Nat → List Char → Option (List JsValue × List Char)
  | 0, _ => none
  | fuel + 1, cs =>
    match parseJsonValue fuel cs with
    | none => none
    | some (v, rest) =>
      match skipWs rest with
      | ',' :: rest2 =>
        match parseJsonElems fuel rest2 with
        | some (xs, rest3) => some (v :: xs, rest3)
        | none => none
      | ']' :: rest2 => some ([v], rest2)
      | _ => none

/-- Comma-separated `"key": value` members up to the closing `}`. -/
def parseJsonMembers : Nat → List Char → Option (List (String × JsValue) × List Char)
  | 0, _ => none
  | fuel + 1, cs =>
    match parseJsonStringLit (skipWs cs) with
    | none => none
    | some (k, rest) =>
      match skipWs rest with
      | ':' :: rest2 =>
        match parseJsonValue fuel rest2 with
        | none => none
        | some (v, rest3) =>
          match skipWs rest3 with
          | ',' :: rest4 =>
            match parseJsonMembers fuel rest4 with
            | some (fs, rest5) => some ((k, v) :: fs, rest5)
            | none => none
          | '}' :: rest4 => some ([(k, v)], rest4)
          | _ => none
      | _ => none

end

/-- The model of the platform's `JSON.parse`: the whole (whitespace-padded)
input must be one JSON value. -/
def JSON_parse (s : String) : Option JsValue :=
  match parseJsonValue (2 * s.data.length + 2) s.data with
  | some (v, rest) => if skipWs rest = [] then some v else none
  | none => none

/-- `typeof doc === 'object' && doc !== null` — true for objects **and**
arrays (JavaScript arrays have `typeof` `'object'`). -/
def jsonObjectLike : JsValue → Bool
  | .obj _ => true
  | .arr _ => true
  | _ => false

/-- A collected per-line error, carrying the 1-based line number: the line is
not valid JSON (`Line k: Invalid JSON - ...`, the engine text elided) or it
parsed to a non-object (`Line k: Expected JSON object`). -/
inductive LineErr where
  | invalidJson (line : Nat)
  | notObject (line : Nat)
deriving DecidableEq, Repr

/-- The rejection reasons of `parseJsonlFile` (`Empty JSONL file`,
`JSONL parsing errors: ...`, `No valid documents found in JSONL file`). -/
inductive JsonlError where
  | emptyFile
  | parseErrors (errs : List LineErr)
  | noDocs
deriving DecidableEq, Repr

/-- `content.trim().split('\n').filter(line => line.trim())` (line 96): the
kept lines are untrimmed, a line is kept when its trim is nonempty. -/
def jsLines (content : String) : List String :=
  (jsSplit '\n' (jsTrim content)).filter (fun line => jsTrim line != "")

/-- What one iteration of the `forEach` of lines 106–117 pushes for the
0-based line index `idx`: a document, or a collected error. -/
def lineResult (idx : Nat) (line : String) : Sum JsValue LineErr :=
  match JSON_parse line with
  | none => .inr (.invalidJson (idx + 1))
  | some doc => if jsonObjectLike doc then .inl doc else .inr (.notObject (idx + 1))

/-- The `documents` array accumulated by the `forEach`. -/
def lineDocs (lines : List String) : List JsValue :=
  (lines.enum.map (fun p => lineResult p.1 p.2)).filterMap
    (fun r => match r with | .inl d => some d | .inr _ => none)

/-- The `errors` array accumulated by the `forEach`. -/
def lineErrors (lines : List String) : List LineErr :=
  (lines.enum.map (fun p => lineResult p.1 p.2)).filterMap
    (fun r => match r with | .inl _ => none | .inr e => some e)

/-- `parseJsonlFile` (lines 89–141): reject an empty file; parse each kept
line independently; reject with *all* collected errors when any line failed;
reject when no document remains; otherwise resolve with the documents. -/
def parseJsonlFile (content : String) : Except JsonlError (List JsValue) :=
  let lines := jsLines content
  if lines = [] then .error .emptyFile
  else
    let documents := lineDocs lines
    let errors := lineErrors lines
    if errors ≠ [] then .error (.parseErrors errors)
    else if documents.isEmpty then .error .noDocs
    else .ok documents

theorem filterMap_sum_length (rs : List (Sum JsValue LineErr)) :
    (rs.filterMap (fun r => match r with | .inl d => some d | .inr _ => none)).length +
      (rs.filterMap (fun r => match r with | .inl _ => none | .inr e => some e)).length =
      rs.length := by
  induction rs with
  | nil => simp
  | cons r rs ih => rcases r with d | e <;> simp [List.filterMap_cons] <;> omega

theorem lineDocs_lineErrors_length (lines : List String) :
    (lineDocs lines).length + (lineErrors lines).length = lines.length := by
  rw [lineDocs, lineErrors, filterMap_sum_length]
  simp

/-! ### C9: JSONL lines with errors -/

/-- C9 fails on the code: in a two-line file whose first line is the
well-formed object `{"a":1}` and whose second line `oops` is not JSON, the
error for line 2 is indeed collected and the bad line excluded — but
`parseJsonlFile` then rejects the whole file with the collected errors, so
the remaining well-formed line is **not** handed onward as a document. -/
theorem claim_C9_jsonl_counterexample :
    JSON_parse "\x7b\"a\":1\x7d" = some (.obj [("a", .num 1)]) ∧
      parseJsonlFile "\x7b\"a\":1\x7d\noops" =
        .error (.parseErrors [.invalidJson 2]) :=
  ⟨rfl, rfl⟩

/-- C9 (amended): each kept line is parsed independently and a line that
fails to parse or is not object-like is recorded as a collected error with
its 1-based line number; but the call resolves with the parsed documents only
when the file has at least one kept line and **no** line error — any line
error makes the whole call reject, carrying all collected errors, and no
document is handed onward. -/
theorem claim_C9_jsonl_error_handling_amended (content : String) :
    ((parseJsonlFile content).toBool = true ↔
      (jsLines content ≠ [] ∧ lineErrors (jsLines content) = [])) ∧
      (lineErrors (jsLines content) ≠ [] →
        parseJsonlFile content = .error (.parseErrors (lineErrors (jsLines content)))) ∧
      (jsLines content ≠ [] → lineErrors (jsLines content) = [] →
        parseJsonlFile content = .ok (lineDocs (jsLines content))) := by
  have hlen := lineDocs_lineErrors_length (jsLines content)
  by_cases h0 : jsLines content = []
  · have herr0 : lineErrors (jsLines content) = [] := by rw [h0]; rfl
    have hres : parseJsonlFile content = .error .emptyFile := by
      simp only [parseJsonlFile]
      rw [if_pos h0]
    refine ⟨?_, ?_, ?_⟩
    · rw [hres]
      simp [Except.toBool, h0]
    · intro herr
      exact absurd herr0 herr
    · intro hne
      exact absurd h0 hne
  · by_cases herr : lineErrors (jsLines content) = []
    · have hdocs : (lineDocs (jsLines content)).isEmpty = false := by
        rcases hd : lineDocs (jsLines content) with _ | ⟨d, ds⟩
        · rw [hd, herr] at hlen
          simp at hlen
          exact absurd (List.length_eq_zero.mp hlen.symm) h0
        · rfl
      have hres : parseJsonlFile content = .ok (lineDocs (jsLines content)) := by
        simp only [parseJsonlFile]
        rw [if_neg h0, if_neg (by simp [herr]), if_neg (by simp [hdocs])]
      refine ⟨?_, ?_, ?_⟩
      · rw [hres]
        simp [Except.toBool, h0, herr]
      · intro hcontra
        exact absurd herr hcontra
      · intro _ _
        exact hres
    · have hres : parseJsonlFile content =
          .error (.parseErrors (lineErrors (jsLines content))) := by
        simp only [parseJsonlFile]
        rw [if_neg h0, if_pos herr]
      refine ⟨?_, ?_, ?_⟩
      · rw [hres]
        simp [Except.toBool, herr]
      · intro _
        exact hres
      · intro _ hcontra
        exact absurd hcontra herr

/-! ## Witnesses for the hypothesis-carrying claims -/

/-- Witness for C3: a 2-document run (both writes would succeed, but document
2 carries the malformed sentinel `"GeoPoint(abc)"`): document 1 completes,
document 2 fails with exactly one error entry carrying position 2 and the
encoding error text. -/
theorem claim_C3_per_document_isolation_witness :
    (uploadDocuments "c" [[("a", JsValue.num 1)], [("b", JsValue.str "GeoPoint(abc)")]]
        "p" "" (.ok "jwt") (.ok ⟨true, 200, "", "tok"⟩)
        [.ok ⟨true, 200, ""⟩, .ok ⟨true, 200, ""⟩]
        (chunks5 (List.range 2))).1.completed = 1 ∧
      (uploadDocuments "c" [[("a", JsValue.num 1)], [("b", JsValue.str "GeoPoint(abc)")]]
        "p" "" (.ok "jwt") (.ok ⟨true, 200, "", "tok"⟩)
        [.ok ⟨true, 200, ""⟩, .ok ⟨true, 200, ""⟩]
        (chunks5 (List.range 2))).1.failed = 1 ∧
      (uploadDocuments "c" [[("a", JsValue.num 1)], [("b", JsValue.str "GeoPoint(abc)")]]
        "p" "" (.ok "jwt") (.ok ⟨true, 200, "", "tok"⟩)
        [.ok ⟨true, 200, ""⟩, .ok ⟨true, 200, ""⟩]
        (chunks5 (List.range 2))).1.emitted.count
        ⟨.error, .docFailed 2,
          some "Invalid GeoPoint format: GeoPoint(abc). Expected: GeoPoint(latitude, longitude)"⟩
        = 1 := by
  obtain ⟨h1, h2, h3⟩ := claim_C3_per_document_isolation "c" "p" "" "tok"
    [[("a", JsValue.num 1)], [("b", JsValue.str "GeoPoint(abc)")]]
    (.ok "jwt") (.ok ⟨true, 200, "", "tok"⟩)
    [.ok ⟨true, 200, ""⟩, .ok ⟨true, 200, ""⟩]
    (chunks5 (List.range 2)) _ _ rfl rfl (validSched_self 2)
  exact ⟨h1.trans (by decide), h2.trans (by decide),
    (h3 1 (by decide)).1 _ rfl⟩

/-- Witness for C4: a malformed-PEM JWT failure rejects with that error and
zero counters, while the same documents with working oracles resolve. -/
theorem claim_C4_preflight_abort_witness :
    (uploadDocuments "c" [[("a", JsValue.num 1)]] "p" ""
        (.error "Failed to create JWT: bad PEM") (.ok ⟨true, 200, "", "tok"⟩)
        [.ok ⟨true, 200, ""⟩] (chunks5 (List.range 1))).2 =
      .error "Failed to create JWT: bad PEM" ∧
      (uploadDocuments "c" [[("a", JsValue.num 1)]] "p" ""
        (.error "Failed to create JWT: bad PEM") (.ok ⟨true, 200, "", "tok"⟩)
        [.ok ⟨true, 200, ""⟩] (chunks5 (List.range 1))).1.completed = 0 ∧
      (uploadDocuments "c" [[("a", JsValue.num 1)]] "p" ""
        (.error "Failed to create JWT: bad PEM") (.ok ⟨true, 200, "", "tok"⟩)
        [.ok ⟨true, 200, ""⟩] (chunks5 (List.range 1))).1.failed = 0 ∧
      (uploadDocuments "c" [[("a", JsValue.num 1)]] "p" ""
        (.ok "jwt") (.ok ⟨true, 200, "", "tok"⟩)
        [.ok ⟨true, 200, ""⟩] (chunks5 (List.range 1))).2 = .ok () := by
  obtain ⟨hfail, _⟩ := claim_C4_preflight_abort "c" "p" "" [[("a", JsValue.num 1)]]
    (.error "Failed to create JWT: bad PEM") (.ok ⟨true, 200, "", "tok"⟩)
    [.ok ⟨true, 200, ""⟩] (chunks5 (List.range 1)) _ _ rfl
  obtain ⟨he1, he2, he3, _, _⟩ := hfail "Failed to create JWT: bad PEM" rfl
  obtain ⟨_, hok⟩ := claim_C4_preflight_abort "c" "p" "" [[("a", JsValue.num 1)]]
    (.ok "jwt") (.ok ⟨true, 200, "", "tok"⟩)
    [.ok ⟨true, 200, ""⟩] (chunks5 (List.range 1)) _ _ rfl
  exact ⟨he1, he2, he3, (hok "tok" rfl (validSched_self 1)).1⟩

/-- Witness for C5 (amended): the concrete 401 exchange rejects with the
OAuth error and retains two error entries and no success entry. -/
theorem claim_C5_token_401_amended_witness :
    (uploadDocuments "c" [[("x", JsValue.bool true)]] "p" "" (.ok "jwt")
        (.ok ⟨false, 401, "Unauthorized", ""⟩) [.ok ⟨true, 200, ""⟩] []).2 =
      .error "OAuth failed (401): Unauthorized" ∧
      (uploadDocuments "c" [[("x", JsValue.bool true)]] "p" "" (.ok "jwt")
        (.ok ⟨false, 401, "Unauthorized", ""⟩) [.ok ⟨true, 200, ""⟩] []).1.retained.countP
        (fun entry => entry.kind == LogKind.error) = 2 ∧
      (uploadDocuments "c" [[("x", JsValue.bool true)]] "p" "" (.ok "jwt")
        (.ok ⟨false, 401, "Unauthorized", ""⟩) [.ok ⟨true, 200, ""⟩] []).1.retained.countP
        (fun entry => entry.kind == LogKind.success) = 0 := by
  obtain ⟨h1, h2, h3⟩ := claim_C5_token_401_amended "c" "p" "" "jwt"
    [[("x", JsValue.bool true)]] ⟨false, 401, "Unauthorized", ""⟩
    [.ok ⟨true, 200, ""⟩] [] _ _ rfl rfl
  exact ⟨h1, h2, h3⟩

/-- Witness for C6: the 2-document run of the C3 witness resolves with
`completed + failed = 2`. -/
theorem claim_C6_counter_conservation_witness :
    (uploadDocuments "c" [[("a", JsValue.num 1)], [("b", JsValue.str "GeoPoint(abc)")]]
        "p" "" (.ok "jwt") (.ok ⟨true, 200, "", "tok"⟩)
        [.ok ⟨true, 200, ""⟩, .ok ⟨true, 200, ""⟩]
        (chunks5 (List.range 2))).2 = .ok () ∧
      (uploadDocuments "c" [[("a", JsValue.num 1)], [("b", JsValue.str "GeoPoint(abc)")]]
        "p" "" (.ok "jwt") (.ok ⟨true, 200, "", "tok"⟩)
        [.ok ⟨true, 200, ""⟩, .ok ⟨true, 200, ""⟩]
        (chunks5 (List.range 2))).1.completed +
      (uploadDocuments "c" [[("a", JsValue.num 1)], [("b", JsValue.str "GeoPoint(abc)")]]
        "p" "" (.ok "jwt") (.ok ⟨true, 200, "", "tok"⟩)
        [.ok ⟨true, 200, ""⟩, .ok ⟨true, 200, ""⟩]
        (chunks5 (List.range 2))).1.failed = 2 := by
  obtain ⟨h1, h2, _⟩ := claim_C6_counter_conservation "c" "p" "" "tok"
    [[("a", JsValue.num 1)], [("b", JsValue.str "GeoPoint(abc)")]]
    (.ok "jwt") (.ok ⟨true, 200, "", "tok"⟩)
    [.ok ⟨true, 200, ""⟩, .ok ⟨true, 200, ""⟩]
    (chunks5 (List.range 2)) _ _ rfl rfl (validSched_self 2)
  exact ⟨h1, h2⟩

/-- Witness for C7: the 2-document run finishes at percentage 100. -/
theorem claim_C7_percentage_discipline_witness :
    (uploadDocuments "c" [[("a", JsValue.num 1)], [("b", JsValue.str "GeoPoint(abc)")]]
        "p" "" (.ok "jwt") (.ok ⟨true, 200, "", "tok"⟩)
        [.ok ⟨true, 200, ""⟩, .ok ⟨true, 200, ""⟩]
        (chunks5 (List.range 2))).1.progress.percentage = 100 := by
  obtain ⟨_, _, h3⟩ := claim_C7_percentage_discipline "c" "p" "" "tok"
    [[("a", JsValue.num 1)], [("b", JsValue.str "GeoPoint(abc)")]]
    (.ok "jwt") (.ok ⟨true, 200, "", "tok"⟩)
    [.ok ⟨true, 200, ""⟩, .ok ⟨true, 200, ""⟩]
    (chunks5 (List.range 2)) _ _ rfl rfl (validSched_self 2)
  exact h3

/-- Witness for C9 (amended): a one-line file holding `{}` resolves with that
single (empty-object) document. -/
theorem claim_C9_jsonl_error_handling_amended_witness :
    parseJsonlFile "\x7b\x7d" = .ok [JsValue.obj []] := by
  have h := (claim_C9_jsonl_error_handling_amended "\x7b\x7d").2.2
    (by decide) (by decide)
  exact h.trans rfl

/-- Witness for C10: a 1-document run's first snapshot is the initial one and
its `total` field is the document count. -/
theorem claim_C10_total_frame_witness :
    (uploadDocuments "c" [[("a", JsValue.num 1)]] "p" ""
        (.error "Failed to create JWT: bad PEM") (.ok ⟨true, 200, "", "tok"⟩)
        [.ok ⟨true, 200, ""⟩] []).1.snapshots.head? =
      some ⟨1, 0, 0, 0⟩ ∧ (⟨1, 0, 0, 0⟩ : Progress).total = 1 := by
  obtain ⟨h1, h2⟩ := claim_C10_total_frame "c" "p" "" [[("a", JsValue.num 1)]]
    (.error "Failed to create JWT: bad PEM") (.ok ⟨true, 200, "", "tok"⟩)
    [.ok ⟨true, 200, ""⟩] [] _ _ rfl
  exact ⟨h1, h2 _ (List.mem_of_mem_head? (Option.mem_def.mpr h1))⟩
